import Mathlib

/-!
Shallow embedding of `src/compose.py`, a command-line scaffolding utility
that generates a React component directory from fixed string templates.

Conventions of the embedding:
* Python strings are Lean `String`s; brace and apostrophe characters inside
  string literals are written with `\x7b`, `\x7d`, `\x27` escapes.
* The filesystem is modelled as a set of directories (list of paths) plus an
  association list from paths to file contents; a path is a list of segments.
  I/O failures (permissions, disk full) are outside the model, matching the
  spec's statement that they propagate unhandled.
* `input()` is modelled by passing the entered line (without its terminating
  newline, which `input()` strips) as an explicit argument.
* Fallible operations (`str.format` raising `KeyError`/`ValueError`, tuple
  unpacking raising on an empty list) return `Option`.
-/

namespace Compose

/-- Template constant `INDEX` from compose.py (lines 13-35), verbatim. -/
def INDEX : String :=
  "import React from \x27react\x27\nimport PropTypes from \x27prop-types\x27\nimport Actions, \x7b\x7b actionPropTypes \x7d\x7d from \x27./Actions\x27\nimport View from \x27./View\x27\n\nconst \x7bname\x7d = (props) => (\n  <View \x7b\x7b...props\x7d\x7d \x7b\x7b...Actions(props)\x7d\x7d />\n)\n\nconst propTypes = \x7b\x7b \x7d\x7d\n\n\x7bname\x7d.displayName = \x27\x7bname\x7d\x27\n\n\x7bname\x7d.propTypes = propTypes\n\nView.propTypes = \x7b\x7b\n  ...propTypes,\n  ...actionPropTypes,\n\x7d\x7d\n\nexport default \x7bname\x7d\n"

/-- Template constant `SIMPLE_INDEX` from compose.py (lines 37-51), verbatim. -/
def SIMPLE_INDEX : String :=
  "import React from \x27react\x27\nimport PropTypes from \x27prop-types\x27\nimport styles from \x27./styles.module.css\x27\n\nconst \x7bname\x7d = (props) => (\n  <></>\n)\n\n\x7bname\x7d.displayName = \x27\x7bname\x7d\x27\n\n\x7bname\x7d.propTypes = \x7b\x7b \x7d\x7d\n\nexport default \x7bname\x7d\n"

/-- Template constant `VIEW` from compose.py (lines 53-65), verbatim. -/
def VIEW : String :=
  "import React from \x27react\x27\nimport styles from \x27./styles.module.css\x27\n\nconst View = (props) => (\n  <>\n  </>\n)\n\nView.displayName = \x27\x7bname\x7d/View\x27\n\nexport default View\n"

/-- Template constant `ACTIONS` from compose.py (lines 67-76), verbatim. -/
def ACTIONS : String :=
  "import React from \x27react\x27\nimport PropTypes from \x27prop-types\x27\n\nconst Actions = (props) => \x7b\x7b \x7d\x7d\n\nexport const actionPropTypes = \x7b\x7b \x7d\x7d\n\nexport default Actions\n"

/-- One character of the regex class `[\w]`, restricted to the ASCII range:
an ASCII letter, an ASCII digit, or an underscore.  Python's `\w` additionally
matches non-ASCII Unicode word characters; the embedding models the ASCII
fragment, and theorems quantifying over arbitrary strings carry an ASCII
hypothesis where this matters. -/
def wordChar (c : Char) : Bool := c.isAlphanum || c == '_'

/-- Matching of the anchored regex `^[A-Z][\w]*$` against a whole character
list, with Python's `re` semantics for `$`: it matches at the end of the
string, or just before a newline that is the last character of the string.
Hence the list matches iff it is a `[A-Z]` character followed by word
characters, optionally with one final newline. -/
def matchNameRegex : List Char → Bool
  | [] => false
  | c :: rest =>
    c.isUpper &&
      (rest.all wordChar ||
        ((rest.getLast? == some '\n') && (rest.dropLast).all wordChar))

/-- Embedding of `is_component_name` (compose.py lines 104-105):
`re.match(r'^[A-Z][\w]*$', name) is not None`. -/
def is_component_name (name : String) : Bool := matchNameRegex name.data

/-- Python `str.casefold`, modelled on the ASCII fragment (ASCII uppercase
letters map to lowercase, everything else is unchanged).  Full Unicode case
folding is outside the model; theorems about arbitrary input lines carry an
ASCII hypothesis. -/
def pyCasefold (s : String) : String := String.mk (s.data.map Char.toLower)

/-- Embedding of `confirm` (compose.py lines 100-101):
`input(prompt).casefold() == true_value.casefold()`.  The `line` argument is
the text the user entered, without the terminating newline that `input()`
strips. -/
def confirm (line : String) (true_value : String) : Bool :=
  pyCasefold line == pyCasefold true_value

/-- Python `template.format(name=...)`, modelled on the fragment this program
exercises: the only replacement field is `\x7bname\x7d` with no conversion and
no format spec, `\x7b\x7b` and `\x7d\x7d` are literal-brace escapes, and any
other use of a brace (a stray brace, an unknown field, a conversion or format
spec) raises; all raising paths (`KeyError`, `ValueError`, `IndexError`) are
collapsed to `none`. -/
def pyFormat (name : List Char) : List Char → Option (List Char)
  | [] => some []
  | '{' :: '{' :: rest =>
    match pyFormat name rest with
    | some s => some ('{' :: s)
    | none => none
  | '}' :: '}' :: rest =>
    match pyFormat name rest with
    | some s => some ('}' :: s)
    | none => none
  | '{' :: 'n' :: 'a' :: 'm' :: 'e' :: '}' :: rest =>
    match pyFormat name rest with
    | some s => some (name ++ s)
    | none => none
  | '{' :: _ => none
  | '}' :: _ => none
  | c :: rest =>
    match pyFormat name rest with
    | some s => some (c :: s)
    | none => none

/-- Embedding of `render_template` (compose.py lines 108-109) with
`context = dict(name=name)`: the text written to the file is
`template.format(name=name)`.  The file handle is modelled by returning the
written text; `none` is a raised formatting error. -/
def render_template (template : String) (name : String) : Option String :=
  (pyFormat name.data template.data).map String.mk

/-- Embedding of `get_templates` (compose.py lines 127-136).  A Python dict
preserves insertion order, so the ordered mapping is an association list. -/
def get_templates (simple : Bool) : List (String × String) :=
  if simple then
    [("index.js", SIMPLE_INDEX), ("styles.module.css", "")]
  else
    [("index.js", INDEX), ("Actions.js", ACTIONS), ("View.js", VIEW),
      ("styles.module.css", "")]

/-- A filesystem path, as a list of segments; `base / name` is `base ++ [name]`. -/
abbrev FilePath0 := List String

/-- Boolean membership of a path in a list of paths. -/
def memPath (dirs : List FilePath0) (p : FilePath0) : Bool :=
  dirs.any (fun q => q == p)

/-- First binding of a path in the file association list. -/
def lookupFile (files : List (FilePath0 × String)) (p : FilePath0) : Option String :=
  match files with
  | [] => none
  | (q, d) :: rest => if q = p then some d else lookupFile rest p

/-- Writing a file: replace the first binding of the path, or append a new
binding at the end.  This models `open(path, 'w')` truncating/creating. -/
def setFile (files : List (FilePath0 × String)) (p : FilePath0) (c : String) :
    List (FilePath0 × String) :=
  match files with
  | [] => [(p, c)]
  | (q, d) :: rest => if q = p then (p, c) :: rest else (q, d) :: setFile rest p c

/-- Creating a single directory if it is not already present. -/
def addDir (dirs : List FilePath0) (p : FilePath0) : List FilePath0 :=
  if memPath dirs p then dirs else dirs ++ [p]

/-- Model of `Path.mkdir(parents=True)`: create every initial segment of the
path (each missing intermediate directory, then the path itself). -/
def mkdirParents (dirs : List FilePath0) (p : FilePath0) : List FilePath0 :=
  ((List.range p.length).map (fun i => p.take (i + 1))).foldl addDir dirs

/-- The filesystem state: the set of existing directories and the contents of
existing files. -/
structure FS where
  dirs : List FilePath0
  files : List (FilePath0 × String)
  deriving DecidableEq, Repr

/-- Model of `Path.exists()`: true when a directory or a file is present at
the path. -/
def pathExists (fs : FS) (p : FilePath0) : Bool :=
  memPath fs.dirs p || (lookupFile fs.files p).isSome

/-- The per-file loop of `make_component` (compose.py lines 121-124): for each
`(filename, template)` pair in order, render the template and write the result
to `root/filename`.  A formatting error aborts with `none`. -/
def writeAll (root : FilePath0) (name : String) :
    List (String × String) → List (FilePath0 × String) → Option (List (FilePath0 × String))
  | [], files => some files
  | (fname, template) :: rest, files =>
    match render_template template name with
    | none => none
    | some c => writeAll root name rest (setFile files (root ++ [fname]) c)

/-- Embedding of `make_component` (compose.py lines 112-124): compute
`root = base / name`, create it (with parents) unless it already exists, then
write every rendered template into it. -/
def make_component (name : String) (base : FilePath0)
    (file_template_mapping : List (String × String)) (fs : FS) : Option FS :=
  let root : FilePath0 := base ++ [name]
  let dirs := if pathExists fs root then fs.dirs else mkdirParents fs.dirs root
  (writeAll root name file_template_mapping fs.files).map (fun files => ⟨dirs, files⟩)

/-- Diagnostic printed to stderr on an invalid component name
(compose.py lines 147-150; Python concatenates the two adjacent literals). -/
def errorInvalidName : String :=
  "Error: El nombre del componente debe comenzar en una letra mayúscula y no debe contener espacios."

/-- Message printed when the user declines the confirmation (line 169). -/
def cancelMessage : String := "Operación cancelada."

/-- Message printed after the files are written (line 174). -/
def successMessage : String := "Operación realizada exitosamente."

/-- Embedding of the nested `print_tree` (compose.py lines 158-162): the tuple
unpacking `*filenames, last_filename = filenames` raises on an empty list
(`none`); otherwise the returned lines are every entry but the last prefixed
with four spaces and `|---- `, then the last entry prefixed with four spaces
and a backslash followed by `---- `. -/
def print_tree (filenames : List String) : Option (List String) :=
  match filenames.getLast? with
  | none => none
  | some last =>
    some ((filenames.dropLast.map (fun f => "    |---- " ++ f)) ++
      ["    \\---- " ++ last])

/-- The outcome of one run of `main` (compose.py lines 139-174): the exit
code, the final filesystem, the lines printed to stderr, the status line
printed to stdout after the confirmation decision, and whether a line of
input was read.  The stdout preamble (tree preview and overwrite warning),
which does not depend on the confirmation outcome, is covered separately by
`print_tree`. -/
structure MainResult where
  exitCode : Nat
  fs : FS
  stderrLines : List String
  statusLines : List String
  readInput : Bool
  deriving DecidableEq, Repr

/-- Embedding of `main` (compose.py lines 139-174).  `line` is the input the
user would type at the confirmation prompt; by short-circuiting, it is only
read when `skip_confirm` is false. -/
def main (fs : FS) (dir : FilePath0) (component_name : String)
    (skip_confirm : Bool) (simple : Bool) (line : String) : Option MainResult :=
  if !is_component_name component_name then
    some ⟨1, fs, [errorInvalidName], [], false⟩
  else if !skip_confirm && !confirm line "s" then
    some ⟨0, fs, [], [cancelMessage], true⟩
  else
    (make_component component_name dir (get_templates simple) fs).map
      (fun fs2 => ⟨0, fs2, [], [successMessage], !skip_confirm⟩)

/-! ### Specification-side definitions

These follow the spec's words (amended where the code forced a correction)
and are compared with the embedded code above. -/

/-- Name validity in the spec's words (§4.1): the first character is an
uppercase ASCII letter and every subsequent character is an ASCII letter,
digit, or underscore. -/
def specValidName (name : String) : Bool :=
  match name.data with
  | [] => false
  | c :: rest => c.isUpper && rest.all wordChar

/-- Well-formed templates: every brace is part of a doubled literal-brace
escape or of the single supported placeholder `\x7bname\x7d`. -/
def goodTemplate : List Char → Bool
  | [] => true
  | '{' :: '{' :: rest => goodTemplate rest
  | '}' :: '}' :: rest => goodTemplate rest
  | '{' :: 'n' :: 'a' :: 'm' :: 'e' :: '}' :: rest => goodTemplate rest
  | '{' :: _ => false
  | '}' :: _ => false
  | _ :: rest => goodTemplate rest

/-- Rendering in the amended spec's words: every `\x7bname\x7d` token is
replaced by the component name, every doubled brace is replaced by a single
literal brace, and every other character is copied byte-identically. -/
def renderSpec (name : List Char) : List Char → List Char
  | [] => []
  | '{' :: '{' :: rest => '{' :: renderSpec name rest
  | '}' :: '}' :: rest => '}' :: renderSpec name rest
  | '{' :: 'n' :: 'a' :: 'm' :: 'e' :: '}' :: rest => name ++ renderSpec name rest
  | '{' :: rest => renderSpec name rest
  | '}' :: rest => renderSpec name rest
  | c :: rest => c :: renderSpec name rest

/-! ### Helper lemmas -/

/-- On a well-formed template, the embedded formatter succeeds and agrees
with the spec-side renderer. -/
theorem pyFormat_eq_renderSpec (name t : List Char) (h : goodTemplate t = true) :
    pyFormat name t = some (renderSpec name t) := by
  induction t using goodTemplate.induct <;>
    simp_all [pyFormat, renderSpec, goodTemplate]

/-- Looking up the path just written yields the written contents. -/
theorem lookupFile_setFile_self (l : List (FilePath0 × String)) (p : FilePath0) (c : String) :
    lookupFile (setFile l p c) p = some c := by
  induction l with
  | nil => simp [setFile, lookupFile]
  | cons hd tl ih =>
    obtain ⟨q, d⟩ := hd
    by_cases hq : q = p <;> simp [setFile, lookupFile, hq, ih]

/-- Writing one path does not change the binding of another. -/
theorem lookupFile_setFile_ne (l : List (FilePath0 × String)) {p p' : FilePath0}
    (h : p ≠ p') (c : String) : lookupFile (setFile l p c) p' = lookupFile l p' := by
  induction l with
  | nil => simp [setFile, lookupFile, h]
  | cons hd tl ih =>
    obtain ⟨q, d⟩ := hd
    by_cases hq : q = p
    · subst hq
      simp [setFile, lookupFile, h]
    · simp [setFile, lookupFile, hq, ih]

/-- Rewriting a binding with the value it already has changes nothing. -/
theorem setFile_self {l : List (FilePath0 × String)} {p : FilePath0} {c : String}
    (h : lookupFile l p = some c) : setFile l p c = l := by
  induction l with
  | nil => simp [lookupFile] at h
  | cons hd tl ih =>
    obtain ⟨q, d⟩ := hd
    by_cases hq : q = p
    · subst hq
      simp [lookupFile] at h
      simp [setFile, h]
    · simp [lookupFile, hq] at h
      simp [setFile, hq, ih h]

/-- A path list always contains what `addDir` just added. -/
theorem memPath_addDir_self (dirs : List FilePath0) (p : FilePath0) :
    memPath (addDir dirs p) p = true := by
  unfold addDir
  by_cases h : memPath dirs p = true
  · rw [if_pos h]
    exact h
  · rw [if_neg h]
    simp [memPath]

/-- `addDir` preserves existing paths. -/
theorem memPath_addDir_mono {dirs : List FilePath0} {q : FilePath0}
    (h : memPath dirs q = true) (p : FilePath0) : memPath (addDir dirs p) q = true := by
  unfold addDir
  by_cases hm : memPath dirs p = true
  · simp [hm, h]
  · simp [hm]
    simp [memPath] at h ⊢
    exact Or.inl h

/-- Folding `addDir` over a list of paths preserves existing paths. -/
theorem memPath_foldl_addDir_mono (ps : List FilePath0) :
    ∀ dirs q, memPath dirs q = true → memPath (ps.foldl addDir dirs) q = true := by
  induction ps with
  | nil => intro dirs q h; simpa using h
  | cons hd tl ih =>
    intro dirs q h
    exact ih (addDir dirs hd) q (memPath_addDir_mono h hd)

/-- Folding `addDir` over a list of paths makes each of them present. -/
theorem memPath_foldl_addDir_of_mem (ps : List FilePath0) :
    ∀ dirs q, q ∈ ps → memPath (ps.foldl addDir dirs) q = true := by
  induction ps with
  | nil => intro dirs q h; cases h
  | cons hd tl ih =>
    intro dirs q h
    rcases List.mem_cons.mp h with h | h
    · subst h
      exact memPath_foldl_addDir_mono tl (addDir dirs q) q (memPath_addDir_self dirs q)
    · exact ih (addDir dirs hd) q h

/-- After `mkdir(parents=True)` on a nonempty path, the path itself exists. -/
theorem memPath_mkdirParents_self (dirs : List FilePath0) (p : FilePath0) (h : p ≠ []) :
    memPath (mkdirParents dirs p) p = true := by
  unfold mkdirParents
  apply memPath_foldl_addDir_of_mem
  have hl : 0 < p.length := List.length_pos.mpr h
  refine List.mem_map.mpr ⟨p.length - 1, List.mem_range.mpr (by omega), ?_⟩
  have : p.length - 1 + 1 = p.length := by omega
  rw [this, List.take_length]

/-- `mkdir(parents=True)` preserves existing directories. -/
theorem memPath_mkdirParents_mono {dirs : List FilePath0} {q : FilePath0}
    (h : memPath dirs q = true) (p : FilePath0) : memPath (mkdirParents dirs p) q = true :=
  memPath_foldl_addDir_mono _ dirs q h

/-- A file path inside the root differs from the root itself. -/
theorem append_singleton_ne (p : FilePath0) (a : String) : p ++ [a] ≠ p := by
  intro h
  have := congrArg List.length h
  simp at this

/-- Two file paths inside the same root with different final segments differ. -/
theorem append_singleton_ne_of_ne (p : FilePath0) {a b : String} (h : a ≠ b) :
    p ++ [a] ≠ p ++ [b] := by
  intro he
  exact h (by simpa using he)

/-- Writing the mapped files does not disturb a filename outside the mapping. -/
theorem writeAll_lookup_of_not_mem (root : FilePath0) (name : String)
    (m : List (String × String)) (f : String) (hf : f ∉ m.map Prod.fst) :
    ∀ l l', writeAll root name m l = some l' →
      lookupFile l' (root ++ [f]) = lookupFile l (root ++ [f]) := by
  induction m with
  | nil =>
    intro l l' h
    simp [writeAll] at h
    subst h
    rfl
  | cons hd tl ih =>
    obtain ⟨g, t⟩ := hd
    intro l l' h
    simp only [List.map_cons, List.mem_cons, not_or] at hf
    obtain ⟨hfg, hftl⟩ := hf
    simp only [writeAll] at h
    cases hr : render_template t name with
    | none => rw [hr] at h; simp at h
    | some c =>
      rw [hr] at h
      simp only at h
      rw [ih hftl _ _ h]
      exact lookupFile_setFile_ne l (append_singleton_ne_of_ne root (Ne.symm hfg)) c

/-- Writing the mapped files does not disturb a binding at the root path
itself. -/
theorem writeAll_lookup_root (root : FilePath0) (name : String)
    (m : List (String × String)) :
    ∀ l l', writeAll root name m l = some l' → lookupFile l' root = lookupFile l root := by
  induction m with
  | nil =>
    intro l l' h
    simp [writeAll] at h
    subst h
    rfl
  | cons hd tl ih =>
    obtain ⟨g, t⟩ := hd
    intro l l' h
    simp only [writeAll] at h
    cases hr : render_template t name with
    | none => rw [hr] at h; simp at h
    | some c =>
      rw [hr] at h
      simp only at h
      rw [ih _ _ h]
      exact lookupFile_setFile_ne l (append_singleton_ne root g) c

/-- Replaying the write loop over its own output changes nothing, as long as
the mapping's filenames are distinct. -/
theorem writeAll_idem (root : FilePath0) (name : String) (m : List (String × String))
    (hnd : (m.map Prod.fst).Nodup) :
    ∀ l l', writeAll root name m l = some l' → writeAll root name m l' = some l' := by
  induction m with
  | nil =>
    intro l l' h
    simp [writeAll] at h
    subst h
    rfl
  | cons hd tl ih =>
    obtain ⟨g, t⟩ := hd
    intro l l' h
    simp only [List.map_cons, List.nodup_cons] at hnd
    obtain ⟨hg, hnd'⟩ := hnd
    simp only [writeAll] at h ⊢
    cases hr : render_template t name with
    | none => rw [hr] at h; simp at h
    | some c =>
      rw [hr] at h
      have h2 : writeAll root name tl (setFile l (root ++ [g]) c) = some l' := h
      show writeAll root name tl (setFile l' (root ++ [g]) c) = some l'
      have hlook : lookupFile l' (root ++ [g]) = some c := by
        rw [writeAll_lookup_of_not_mem root name tl g hg _ _ h2]
        exact lookupFile_setFile_self l (root ++ [g]) c
      rw [setFile_self hlook]
      exact ih hnd' _ _ h2

/-- Whether `pat` occurs as a contiguous substring of `s`. -/
def containsSub (pat s : List Char) : Bool :=
  (List.range (s.length + 1)).any (fun i => pat.isPrefixOf (s.drop i))

/-! ### Claim theorems -/

/-- C1, counterexample: the claim states that `is_component_name` returns
true only when every character after the first is an ASCII letter, digit, or
underscore.  On the input consisting of an `A` followed by a newline the code
returns true (Python's `$` also matches just before a trailing newline), yet
a newline is not a word character. -/
theorem is_component_name_trailing_newline_cex :
    is_component_name "A\n" = true ∧ wordChar '\n' = false := by decide

/-- C1, amended: for ASCII strings, `is_component_name` returns true iff the
string starts with an uppercase ASCII letter and continues with word
characters, or is such a string followed by exactly one trailing newline
(Python's `$` matches just before a final newline). -/
theorem is_component_name_charwise (name : String)
    (h : ∀ c ∈ name.data, c.toNat < 128) :
    is_component_name name =
      (specValidName name ||
        ((name.data.getLast? == some '\n') &&
          specValidName (String.mk name.data.dropLast))) := by
  obtain ⟨l⟩ := name
  cases l with
  | nil => simp [is_component_name, matchNameRegex, specValidName]
  | cons c rest =>
    cases rest with
    | nil =>
      cases hc : c.isUpper <;>
        simp [is_component_name, matchNameRegex, specValidName, hc]
    | cons d rest' =>
      cases hc : c.isUpper <;>
        simp [is_component_name, matchNameRegex, specValidName, hc,
          List.dropLast_cons₂, List.getLast?_cons_cons]

/-- C1, witness for the amended theorem at the concrete input `Button`. -/
theorem is_component_name_charwise_witness :
    is_component_name "Button" =
      (specValidName "Button" ||
        ((("Button" : String).data.getLast? == some '\n') &&
          specValidName (String.mk ("Button" : String).data.dropLast))) :=
  is_component_name_charwise "Button" (by decide)

/-- C2, counterexample: the claim states that every character of the template
outside `\x7bname\x7d` occurrences appears byte-identically in the output.
The template consisting of two open braces contains no `\x7bname\x7d`
occurrence at all, yet `render_template` collapses it to a single open brace
(Python `str.format` treats a doubled brace as an escape). -/
theorem render_template_brace_escape_cex :
    render_template "\x7b\x7b" "X" = some "\x7b" ∧
    containsSub ("\x7bname\x7d" : String).data ("\x7b\x7b" : String).data = false := by
  decide

/-- C2, amended: on every template whose braces occur only as doubled
literal-brace escapes or as the placeholder `\x7bname\x7d`, `render_template`
replaces every `\x7bname\x7d` by the literal component name, replaces every
doubled brace by a single brace, and copies every other character
byte-identically; templates with any other brace usage raise instead. -/
theorem render_template_good_template (t name : String)
    (h : goodTemplate t.data = true) :
    render_template t name = some (String.mk (renderSpec name.data t.data)) := by
  unfold render_template
  rw [pyFormat_eq_renderSpec name.data t.data h]
  rfl

/-- C2, witness for the amended theorem at a concrete template exercising a
literal character, a doubled brace, and the placeholder. -/
theorem render_template_good_template_witness :
    render_template "a\x7b\x7bb\x7bname\x7dc" "Z" = some "a\x7bbZc" := by
  have h := render_template_good_template "a\x7b\x7bb\x7bname\x7dc" "Z" (by decide)
  rw [h]
  rfl

/-- C3, counterexample: the claim states the program proceeds iff the
trimmed, case-insensitive input equals `s`.  The input consisting of a space
followed by `s` trims to exactly `s`, yet `confirm` rejects it: the code
compares the case-folded line without any trimming. -/
theorem confirm_no_trim_cex :
    confirm " s" "s" = false ∧
    (" s" : String).data.dropWhile (fun c => c == ' ') = ("s" : String).data := by
  decide

/-- C3, amended: with the skip flag absent the program proceeds iff the
case-folded input line (with no whitespace trimming; `input()` only strips
the line terminator) equals the literal `s`; on any other line it prints the
cancellation message and exits with code 0 leaving the filesystem unchanged,
having read the input.  With the skip flag present it proceeds without
reading input, irrespective of the line. -/
theorem main_confirmation_behavior (fs : FS) (dir : FilePath0) (name : String)
    (simple : Bool) (line : String)
    (hname : is_component_name name = true)
    (_hascii : ∀ c ∈ line.data, c.toNat < 128) :
    (pyCasefold line ≠ "s" →
      main fs dir name false simple line = some ⟨0, fs, [], [cancelMessage], true⟩) ∧
    (pyCasefold line = "s" →
      main fs dir name false simple line =
        (make_component name dir (get_templates simple) fs).map
          (fun fs2 => ⟨0, fs2, [], [successMessage], true⟩)) ∧
    main fs dir name true simple line =
      (make_component name dir (get_templates simple) fs).map
        (fun fs2 => ⟨0, fs2, [], [successMessage], false⟩) := by
  have hs : pyCasefold "s" = "s" := rfl
  refine ⟨?_, ?_, ?_⟩
  · intro h
    have hb : (pyCasefold line == pyCasefold "s") = false := by
      rw [hs]
      exact beq_eq_false_iff_ne.mpr h
    simp [main, hname, confirm, hb]
  · intro h
    have hb : (pyCasefold line == pyCasefold "s") = true := by
      rw [hs]
      exact beq_iff_eq.mpr h
    simp [main, hname, confirm, hb]
  · simp [main, hname]

/-- C3, witness for the amended theorem: input `n` cancels with exit code 0,
no writes, and the cancellation message. -/
theorem main_confirmation_behavior_witness :
    main ⟨[], []⟩ ["."] "Button" false false "n" =
      some ⟨0, ⟨[], []⟩, [], [cancelMessage], true⟩ :=
  (main_confirmation_behavior ⟨[], []⟩ ["."] "Button" false "n"
    (by decide) (by decide)).1 (by decide)

/-- C4: the full template registry has exactly the keys `index.js`,
`Actions.js`, `View.js`, `styles.module.css` in that order, and the simple
registry exactly `index.js`, `styles.module.css` in that order; both are
fixed pure values. -/
theorem get_templates_keys_order :
    (get_templates false).map Prod.fst =
      ["index.js", "Actions.js", "View.js", "styles.module.css"] ∧
    (get_templates true).map Prod.fst = ["index.js", "styles.module.css"] := by
  decide

/-- C5: for every component name the validator rejects, `main` emits the
diagnostic on stderr and exits with code 1 with the filesystem unchanged,
whatever the other arguments are. -/
theorem main_invalid_name_diagnostic (fs : FS) (dir : FilePath0) (name : String)
    (skip_confirm : Bool) (simple : Bool) (line : String)
    (h : is_component_name name = false) :
    main fs dir name skip_confirm simple line =
      some ⟨1, fs, [errorInvalidName], [], false⟩ := by
  simp [main, h]

/-- C5, witness at the concrete rejected name `button`. -/
theorem main_invalid_name_diagnostic_witness :
    main ⟨[], []⟩ ["."] "button" false false "" =
      some ⟨1, ⟨[], []⟩, [errorInvalidName], [], false⟩ :=
  main_invalid_name_diagnostic ⟨[], []⟩ ["."] "button" false false "" (by decide)

set_option maxRecDepth 40000 in
/-- C6: running with name `Button`, the default directory, the skip flag and
non-simple mode on an empty filesystem exits 0, creates the `./Button`
directory with exactly the four expected files in order, and the rendered
`index.js` contains the two expected substrings. -/
theorem main_button_scenario :
    ((main ⟨[], []⟩ ["."] "Button" true false "").map fun r =>
        (r.exitCode,
         memPath r.fs.dirs [".", "Button"],
         r.fs.files.map Prod.fst,
         (lookupFile r.fs.files [".", "Button", "index.js"]).map fun c =>
           containsSub ("const Button = (props) => (" : String).data c.data &&
           containsSub ("Button.displayName = \x27Button\x27" : String).data c.data))
      = some (0, true,
          [[".", "Button", "index.js"], [".", "Button", "Actions.js"],
           [".", "Button", "View.js"], [".", "Button", "styles.module.css"]],
          some true) := by
  decide

/-- After a successful `make_component`, the target root exists (as the
directory just created, the directory that already existed, or the
pre-existing entry that made `root.exists()` true). -/
theorem pathExists_root_after (name : String) (base : FilePath0)
    (mapping : List (String × String)) (fs fs1 : FS)
    (h : make_component name base mapping fs = some fs1) :
    pathExists fs1 (base ++ [name]) = true := by
  simp only [make_component] at h
  cases hw : writeAll (base ++ [name]) name mapping fs.files with
  | none => rw [hw] at h; simp at h
  | some files =>
    rw [hw] at h
    simp only [Option.map_some', Option.some.injEq] at h
    subst h
    by_cases hpe : pathExists fs (base ++ [name]) = true
    · simp only [hpe, if_true]
      simp only [pathExists, Bool.or_eq_true] at hpe
      rcases hpe with hm | hf
      · simp [pathExists, hm]
      · have hk := writeAll_lookup_root (base ++ [name]) name mapping _ _ hw
        simp [pathExists, hk, hf]
    · simp only [hpe, if_false]
      simp [pathExists,
        memPath_mkdirParents_self fs.dirs (base ++ [name]) (by simp)]

/-- C7: running `make_component` a second time with the same name, base and
template mapping (whose filenames are distinct, as both registries' are)
succeeds and leaves the filesystem exactly as after the first run. -/
theorem make_component_idempotent (name : String) (base : FilePath0)
    (mapping : List (String × String)) (fs fs1 : FS)
    (hnd : (mapping.map Prod.fst).Nodup)
    (h : make_component name base mapping fs = some fs1) :
    make_component name base mapping fs1 = some fs1 := by
  have hpe1 := pathExists_root_after name base mapping fs fs1 h
  simp only [make_component] at h ⊢
  cases hw : writeAll (base ++ [name]) name mapping fs.files with
  | none => rw [hw] at h; simp at h
  | some files =>
    rw [hw] at h
    simp only [Option.map_some', Option.some.injEq] at h
    have hfiles : fs1.files = files := by rw [← h]
    have hw1 : writeAll (base ++ [name]) name mapping fs.files = some fs1.files := by
      rw [hw, hfiles]
    have hw2 := writeAll_idem (base ++ [name]) name mapping hnd _ _ hw1
    rw [hw2]
    simp [hpe1]

set_option maxRecDepth 40000 in
/-- C7, witness: running twice on the simple registry from an empty
filesystem reproduces the single-run state. -/
theorem make_component_idempotent_witness :
    make_component "Button" ["."] (get_templates true)
        ((make_component "Button" ["."] (get_templates true) ⟨[], []⟩).getD ⟨[], []⟩) =
      make_component "Button" ["."] (get_templates true) ⟨[], []⟩ := by
  have h : make_component "Button" ["."] (get_templates true) ⟨[], []⟩ =
      some ((make_component "Button" ["."] (get_templates true) ⟨[], []⟩).getD ⟨[], []⟩) := by
    decide
  rw [h]
  exact make_component_idempotent "Button" ["."] (get_templates true) ⟨[], []⟩ _
    (by decide) h

/-- C8: on a nonempty list of planned filenames, the printed tree prefixes
every entry but the last with four spaces and `|---- `, and the last with
four spaces and a backslash and `---- `, in order. -/
theorem print_tree_prefixes (filenames : List String) (h : filenames ≠ []) :
    print_tree filenames =
      some ((filenames.dropLast.map (fun f => "    |---- " ++ f)) ++
        ["    \\---- " ++ filenames.getLast h]) := by
  unfold print_tree
  rw [List.getLast?_eq_getLast filenames h]

/-- C8, witness at the concrete list of two filenames. -/
theorem print_tree_prefixes_witness :
    print_tree ["a", "b"] = some ["    |---- a", "    \\---- b"] := by
  have h := print_tree_prefixes ["a", "b"] (by decide)
  rw [h]
  rfl

/-- C9: a successful `make_component` uses the root `base ++ [name]`; when
that root did not exist it creates it (together with every initial segment,
i.e. all missing intermediate directories, via `mkdirParents`), an
already-existing root leaves the directory set unchanged, and in either case
the files are written into the root. -/
theorem make_component_target_dir (name : String) (base : FilePath0)
    (mapping : List (String × String)) (fs fs1 : FS)
    (h : make_component name base mapping fs = some fs1) :
    fs1.dirs = (if pathExists fs (base ++ [name]) then fs.dirs
      else mkdirParents fs.dirs (base ++ [name])) ∧
    memPath (mkdirParents fs.dirs (base ++ [name])) (base ++ [name]) = true ∧
    writeAll (base ++ [name]) name mapping fs.files = some fs1.files := by
  simp only [make_component] at h
  cases hw : writeAll (base ++ [name]) name mapping fs.files with
  | none => rw [hw] at h; simp at h
  | some files =>
    rw [hw] at h
    simp only [Option.map_some', Option.some.injEq] at h
    refine ⟨?_, memPath_mkdirParents_self fs.dirs (base ++ [name]) (by simp), ?_⟩
    · rw [← h]
    · rw [← h]

/-- C9, witness: from an empty filesystem with base `a`, the root `a/Button`
and the intermediate directory `a` are created and the file is written. -/
theorem make_component_target_dir_witness :
    (⟨[["a"], ["a", "Button"]], [(["a", "Button", "f.txt"], "hi Button")]⟩ : FS).dirs
        = (if pathExists ⟨[], []⟩ (["a"] ++ ["Button"]) then (⟨[], []⟩ : FS).dirs
           else mkdirParents (⟨[], []⟩ : FS).dirs (["a"] ++ ["Button"])) ∧
    memPath (mkdirParents (⟨[], []⟩ : FS).dirs (["a"] ++ ["Button"]))
        (["a"] ++ ["Button"]) = true ∧
    writeAll (["a"] ++ ["Button"]) "Button" [("f.txt", "hi \x7bname\x7d")]
        (⟨[], []⟩ : FS).files =
      some (⟨[["a"], ["a", "Button"]],
        [(["a", "Button", "f.txt"], "hi Button")]⟩ : FS).files :=
  make_component_target_dir "Button" ["a"] [("f.txt", "hi \x7bname\x7d")] ⟨[], []⟩
    ⟨[["a"], ["a", "Button"]], [(["a", "Button", "f.txt"], "hi Button")]⟩ (by decide)

/-- C10: every template body in either registry renders successfully for
every component name: each brace in the bodies is a doubled escape or the
`\x7bname\x7d` placeholder, so formatting with the single key never raises. -/
theorem get_templates_render_total (simple : Bool) (name : String) :
    ((get_templates simple).all fun p => (render_template p.2 name).isSome) = true := by
  have hI := pyFormat_eq_renderSpec name.data INDEX.data (by decide)
  have hS := pyFormat_eq_renderSpec name.data SIMPLE_INDEX.data (by decide)
  have hV := pyFormat_eq_renderSpec name.data VIEW.data (by decide)
  have hA := pyFormat_eq_renderSpec name.data ACTIONS.data (by decide)
  have hE : pyFormat name.data [] = some [] := rfl
  cases simple <;>
    simp [get_templates, render_template, hI, hS, hV, hA, hE]

end Compose
